import Mathlib

/-!
Verification of the JobGenie job-application automation system.

Each Python function relevant to the claims is shallowly embedded as an
executable Lean definition, translated directly from the source; effectful
parts (Selenium, the filesystem, the LLM, the clock) are passed in
explicitly as parameters.
-/

namespace JobGenie

/-- Contiguous-sublist test on character lists. -/
def hasSub (pat : List Char) : List Char → Bool
  | [] => pat.isEmpty
  | c :: rest => pat.isPrefixOf (c :: rest) || hasSub pat rest

/-- Python's `pat in s` substring test on strings. -/
def pyIn (pat s : String) : Bool :=
  hasSub pat.toList s.toList

/-- Python's `s.lower()` (ASCII case mapping). -/
def pyLower (s : String) : String :=
  String.mk (s.toList.map Char.toLower)

/-! ### job_bots/factory.py -/

/-- `JobApplicationBotFactory.detect_platform`: substring dispatch on the
lowercased URL; the final branch is a bare `return`, i.e. Python `None`. -/
def detect_platform (url : String) : Option String :=
  let url_lower := pyLower url
  if pyIn "join.com" url_lower then
    some "join"
  else if pyIn "boards.greenhouse.io" url_lower
      || pyIn "job-boards.greenhouse.io" url_lower
      || pyIn "greenhouse.io" url_lower then
    some "greenhouse"
  else if pyIn "lever.co" url_lower || pyIn "jobs.lever.co" url_lower then
    some "lever"
  else
    none

/-- Appending a URL under a platform key, Python-dict style: the value list
of an existing key grows in place, a new key is inserted at the end. -/
def addToGroup : List (String × List String) → String → String →
    List (String × List String)
  | [], p, url => [(p, [url])]
  | (q, l) :: rest, p, url =>
      if q = p then (q, l ++ [url]) :: rest
      else (q, l) :: addToGroup rest p url

/-- One iteration of the `group_urls_by_platform` loop body. -/
def groupStep (acc : List (String × List String)) (url : String) :
    List (String × List String) :=
  match detect_platform url with
  | none => acc
  | some p => addToGroup acc p url

/-- `JobApplicationBotFactory.group_urls_by_platform`: URLs whose platform is
`None` are skipped; the rest are appended to their platform's list. -/
def group_urls_by_platform (urls : List String) : List (String × List String) :=
  urls.foldl groupStep []

/-- The only platform labels `detect_platform` can produce. -/
theorem detect_platform_values (url q : String) (h : detect_platform url = some q) :
    q = "join" ∨ q = "greenhouse" ∨ q = "lever" := by
  simp only [detect_platform] at h
  split_ifs at h <;> simp_all

/-- `List.lookup` on a cons cell, with a propositional test. -/
theorem lookup_cons_pair {β : Type} (x k : String) (v : β)
    (rest : List (String × β)) :
    List.lookup x ((k, v) :: rest) = if x = k then some v else List.lookup x rest := by
  by_cases h : x = k
  · subst h
    simp [List.lookup]
  · simp [List.lookup, beq_false_of_ne h, h]

/-- Unfolding `addToGroup` when the head key matches. -/
theorem addToGroup_cons_eq (k : String) (v : List String)
    (rest : List (String × List String)) (u : String) :
    addToGroup ((k, v) :: rest) k u = (k, v ++ [u]) :: rest := by
  simp [addToGroup]

/-- Unfolding `addToGroup` when the head key differs. -/
theorem addToGroup_cons_ne (k : String) (v : List String)
    (rest : List (String × List String)) (p u : String) (h : k ≠ p) :
    addToGroup ((k, v) :: rest) p u = (k, v) :: addToGroup rest p u := by
  simp [addToGroup, h]

/-- `List.lookup` after `addToGroup`: the looked-up bucket gains `u` at its
end exactly when the looked-up key is the inserted one. -/
theorem lookup_addToGroup (g : List (String × List String)) (p u x : String) :
    List.lookup x (addToGroup g p u) =
      if x = p then some ((List.lookup x g).getD [] ++ [u])
      else List.lookup x g := by
  induction g with
  | nil =>
      rw [show addToGroup [] p u = [(p, [u])] from rfl, lookup_cons_pair]
      by_cases hxp : x = p <;> simp [hxp, List.lookup]
  | cons head rest ih =>
      obtain ⟨k, v⟩ := head
      by_cases hkp : k = p
      · subst hkp
        rw [addToGroup_cons_eq]
        by_cases hxk : x = k
        · subst hxk
          simp [lookup_cons_pair]
        · simp [lookup_cons_pair, hxk]
      · rw [addToGroup_cons_ne k v rest p u hkp]
        by_cases hxk : x = k
        · subst hxk
          have hxp : x ≠ p := hkp
          simp [lookup_cons_pair, hxp]
        · rw [lookup_cons_pair, if_neg hxk, ih, lookup_cons_pair, if_neg hxk]

/-- Bucket contents of the grouping fold: the bucket for `p` is exactly the
filter of the processed URLs, appended to whatever the accumulator held. -/
theorem lookup_foldl_groupStep (urls : List String)
    (acc : List (String × List String)) (p : String) :
    (List.lookup p (urls.foldl groupStep acc)).getD [] =
      (List.lookup p acc).getD []
        ++ urls.filter (fun u => detect_platform u == some p) := by
  induction urls generalizing acc with
  | nil => simp
  | cons u rest ih =>
      rw [List.foldl_cons, List.filter_cons]
      cases hd : detect_platform u with
      | none =>
          have hstep : groupStep acc u = acc := by simp [groupStep, hd]
          rw [hstep, ih]
          simp
      | some q =>
          have hstep : groupStep acc u = addToGroup acc q u := by
            simp [groupStep, hd]
          by_cases hqp : q = p
          · subst hqp
            rw [hstep, ih, lookup_addToGroup, if_pos rfl]
            simp
          · rw [hstep, ih, lookup_addToGroup, if_neg (fun hpq => hqp hpq.symm)]
            simp [hqp]

/-- Keys of `addToGroup`: unchanged when the key exists, appended otherwise. -/
theorem keys_addToGroup (g : List (String × List String)) (p u : String) :
    (addToGroup g p u).map Prod.fst =
      if p ∈ g.map Prod.fst then g.map Prod.fst else g.map Prod.fst ++ [p] := by
  induction g with
  | nil => simp [addToGroup]
  | cons head rest ih =>
      obtain ⟨k, v⟩ := head
      by_cases hkp : k = p
      · subst hkp
        rw [addToGroup_cons_eq]
        simp
      · rw [addToGroup_cons_ne k v rest p u hkp]
        simp only [List.map_cons]
        rw [ih]
        by_cases hp : p ∈ rest.map Prod.fst
        · rw [if_pos hp, if_pos (List.mem_cons.mpr (Or.inr hp))]
        · rw [if_neg hp, if_neg (by
            intro hmem
            rcases List.mem_cons.mp hmem with h | h
            · exact hkp h.symm
            · exact hp h)]
          simp

/-- `addToGroup` preserves distinctness of the platform keys. -/
theorem keys_nodup_addToGroup (g : List (String × List String)) (p u : String)
    (h : (g.map Prod.fst).Nodup) : ((addToGroup g p u).map Prod.fst).Nodup := by
  rw [keys_addToGroup]
  by_cases hp : p ∈ g.map Prod.fst <;> simp_all [List.nodup_append]

/-- The grouping fold keeps the platform keys distinct. -/
theorem keys_nodup_foldl_groupStep (urls : List String)
    (acc : List (String × List String)) (h : (acc.map Prod.fst).Nodup) :
    (((urls.foldl groupStep acc)).map Prod.fst).Nodup := by
  induction urls generalizing acc with
  | nil => simpa
  | cons u rest ih =>
      rw [List.foldl_cons]
      apply ih
      cases hd : detect_platform u with
      | none => simpa [groupStep, hd]
      | some q => simpa [groupStep, hd] using keys_nodup_addToGroup acc q u h

/-- In an association list with distinct keys, membership determines lookup. -/
theorem lookup_of_mem_of_nodupKeys (g : List (String × List String))
    (p : String) (l : List String) (hnd : (g.map Prod.fst).Nodup)
    (h : (p, l) ∈ g) : List.lookup p g = some l := by
  induction g with
  | nil => cases h
  | cons head rest ih =>
      obtain ⟨k, v⟩ := head
      rcases List.mem_cons.mp h with heq | hmem
      · cases heq
        rw [lookup_cons_pair, if_pos rfl]
      · have hk : p ≠ k := by
          intro hpk
          subst hpk
          have : p ∈ rest.map Prod.fst :=
            List.mem_map.mpr ⟨(p, l), hmem, rfl⟩
          simp_all
        have hres := ih (by simp_all) hmem
        rw [lookup_cons_pair, if_neg hk, hres]

/-! ### extract_greenhouse_fields.py: HTML model -/

/-- Parsed HTML: element nodes with a tag, attributes and children, and text
nodes, as produced by BeautifulSoup. -/
inductive HNode where
  | elem (tag : String) (attrs : List (String × String)) (children : List HNode)
  | text (s : String)

mutual

/-- All element nodes of a subtree in document (pre-)order, self included. -/
def HNode.subElems : HNode → List HNode
  | .elem t a c => .elem t a c :: subElemsList c
  | .text _ => []

/-- All element nodes of a forest in document (pre-)order. -/
def subElemsList : List HNode → List HNode
  | [] => []
  | n :: ns => n.subElems ++ subElemsList ns

end

mutual

/-- The text-node strings of a subtree in document order. -/
def HNode.texts : HNode → List String
  | .elem _ _ c => textsList c
  | .text s => [s]

/-- The text-node strings of a forest in document order. -/
def textsList : List HNode → List String
  | [] => []
  | n :: ns => n.texts ++ textsList ns

end

/-- BeautifulSoup `get_text()`: concatenation of all descendant strings. -/
def getText (n : HNode) : String :=
  String.join n.texts

/-- Python `str.strip()` whitespace set (ASCII). -/
def isPyWs (c : Char) : Bool :=
  c = ' ' || c = '\t' || c = '\n' || c = '\r' || c = '\x0b' || c = '\x0c'

/-- Python `str.strip()` on a character list (back, then front). -/
def pyStripChars (l : List Char) : List Char :=
  ((l.reverse.dropWhile isPyWs).reverse).dropWhile isPyWs

/-- Python `str.strip()`. -/
def pyStrip (s : String) : String :=
  String.mk (pyStripChars s.toList)

/-- BeautifulSoup `get_text(strip=True)`: each string stripped, then joined. -/
def getTextStrip (n : HNode) : String :=
  String.join (n.texts.map pyStrip)

/-- Attribute lookup on an element (`Tag.get`); `none` on text nodes. -/
def attrOf (n : HNode) (a : String) : Option String :=
  match n with
  | .elem _ attrs _ => List.lookup a attrs
  | .text _ => none

/-- `soup.find(...)`: first element of the document matching the predicate. -/
def docFind (doc : List HNode) (pred : HNode → Bool) : Option HNode :=
  (subElemsList doc).find? pred

/-- `tag.find(...)`: first descendant element matching the predicate. -/
def HNode.findIn (n : HNode) (pred : HNode → Bool) : Option HNode :=
  match n with
  | .elem _ _ c => (subElemsList c).find? pred
  | .text _ => none

/-- `tag.find_all(...)`: all descendant elements matching the predicate. -/
def HNode.findAllIn (n : HNode) (pred : HNode → Bool) : List HNode :=
  match n with
  | .elem _ _ c => (subElemsList c).filter pred
  | .text _ => []

/-- Tag test. -/
def isTag (t : String) (n : HNode) : Bool :=
  match n with
  | .elem tag _ _ => tag = t
  | .text _ => false

/-- `id` attribute equality test. -/
def hasId (i : String) (n : HNode) : Bool :=
  attrOf n "id" == some i

/-- Strip an expected leading run of characters; `none` when absent. -/
def dropPre : List Char → List Char → Option (List Char)
  | [], l => some l
  | _ :: _, [] => none
  | p :: ps, c :: cs => if p = c then dropPre ps cs else none

/-- Whether the list starts with `question_<digits>-label`. -/
def qLabelAt (l : List Char) : Bool :=
  match dropPre "question_".toList l with
  | none => false
  | some rest =>
      let ds := rest.takeWhile Char.isDigit
      !ds.isEmpty && "-label".toList.isPrefixOf (rest.drop ds.length)

/-- Python `re.search(r'question_\d+-label', s)`: the pattern occurs at some
position of the string. -/
def qLabelSearch : List Char → Bool
  | [] => false
  | c :: rest => qLabelAt (c :: rest) || qLabelSearch rest

/-- One extracted form field, with the keys the analyzer emits (`name` and
`accept` only for the categories that set them). -/
structure FieldInfo where
  id : String
  type : String
  label : String
  required : Bool
  name : Option String
  accept : Option String
  deriving DecidableEq, Repr

/-- Python `s.replace('*', '')`. -/
def removeStar (s : String) : String :=
  String.mk (s.toList.filter (fun c => c ≠ '*'))

/-- The form the analyzer works on: `id='application_form'` if present,
otherwise the first form of the document. -/
def findFormIn (doc : List HNode) : Option HNode :=
  match docFind doc (fun n => isTag "form" n && hasId "application_form" n) with
  | some f => some f
  | none => docFind doc (isTag "form")

/-- The five standard Greenhouse field ids. -/
def basic_ids : List String :=
  ["first_name", "last_name", "email", "phone", "candidate-location"]

/-- `form.find('label', attrs={'for': field_id})`. -/
def labelForIn (form : HNode) (field_id : String) : Option HNode :=
  form.findIn (fun n => isTag "label" n && (attrOf n "for" == some field_id))

/-- Body of the standard-fields loop of `extract_form_fields`. -/
def basicEntry (form : HNode) (field_id : String) : Option FieldInfo :=
  match form.findIn (fun n => isTag "input" n && hasId field_id n) with
  | none => none
  | some field =>
      let label_elem := labelForIn form field_id
      let label_text :=
        match label_elem with
        | some le => getTextStrip le
        | none => field_id
      let required :=
        match label_elem with
        | some le => pyIn "*" (getText le) || (attrOf le "aria-required" == some "true")
        | none => false
      some { id := field_id
           , type := (attrOf field "type").getD "text"
           , label := label_text
           , required := required
           , name := some ((attrOf field "name").getD "")
           , accept := none }

/-- `form.find('div', id='upload-label-<input_id>')`. -/
def uploadLabelFor (form : HNode) (input_id : String) : Option HNode :=
  form.findIn (fun n => isTag "div" n && hasId ("upload-label-" ++ input_id) n)

/-- Body of the file-upload extraction of `extract_form_fields`. -/
def uploadEntry (form : HNode) (input_id default_label : String) : Option FieldInfo :=
  match form.findIn (fun n => isTag "input" n && hasId input_id n) with
  | none => none
  | some inp =>
      let upload_label := uploadLabelFor form input_id
      let label_text :=
        match upload_label with
        | some ul => getTextStrip ul
        | none => default_label
      let required :=
        match upload_label with
        | some ul => pyIn "*" (getText ul)
        | none => false
      some { id := input_id
           , type := "file"
           , label := label_text
           , required := required
           , name := none
           , accept := some ((attrOf inp "accept").getD "") }

/-- `form.find_all('label', id=re.compile(r'question_\d+-label'))`. -/
def questionLabels (form : HNode) : List HNode :=
  form.findAllIn (fun n =>
    isTag "label" n &&
      (match attrOf n "id" with
       | some i => qLabelSearch i.toList
       | none => false))

/-- `form.find(['input', 'select', 'textarea'], id=question_id)`. -/
def questionFieldFor (form : HNode) (question_id : String) : Option HNode :=
  form.findIn (fun n =>
    (isTag "input" n || isTag "select" n || isTag "textarea" n) && hasId question_id n)

/-- Body of the custom-questions loop of `extract_form_fields` (the two
`continue`s become `none`; Python truthiness makes `for=\x22\x22` a skip too). -/
def customEntry (form : HNode) (label_elem : HNode) : Option FieldInfo :=
  match attrOf label_elem "for" with
  | none => none
  | some question_id =>
      if question_id = "" then none
      else
        match questionFieldFor form question_id with
        | none => none
        | some field_elem =>
            let field_type :=
              if isTag "select" field_elem then "select"
              else if isTag "textarea" field_elem then "textarea"
              else
                match attrOf field_elem "type" with
                | some t => if t = "" then "text" else t
                | none => "text"
            let required :=
              pyIn "*" (getText label_elem)
                || (attrOf field_elem "aria-required" == some "true")
            some { id := question_id
                 , type := field_type
                 , label := removeStar (getTextStrip label_elem)
                 , required := required
                 , name := none
                 , accept := none }

/-- The custom-questions list of `extract_form_fields`. -/
def customEntries (form : HNode) : List FieldInfo :=
  (questionLabels form).filterMap (customEntry form)

/-- `form.find(['input', 'select'], id=question_id)`. -/
def demographicFieldFor (form : HNode) (question_id : String) : Option HNode :=
  form.findIn (fun n => (isTag "input" n || isTag "select" n) && hasId question_id n)

/-- Body of the demographic-questions loop of `extract_form_fields`. -/
def demographicEntry (form : HNode) (label_elem : HNode) : Option FieldInfo :=
  match attrOf label_elem "for" with
  | none => none
  | some question_id =>
      if question_id = "" then none
      else
        match demographicFieldFor form question_id with
        | none => none
        | some field_elem =>
            let field_type :=
              if isTag "select" field_elem then "select"
              else
                match attrOf field_elem "type" with
                | some t => if t = "" then "text" else t
                | none => "text"
            let required :=
              pyIn "*" (getText label_elem)
                || (attrOf field_elem "aria-required" == some "true")
            some { id := question_id
                 , type := field_type
                 , label := removeStar (getTextStrip label_elem)
                 , required := required
                 , name := none
                 , accept := none }

/-- The demographic-questions list of `extract_form_fields`. -/
def demographicEntries (form : HNode) : List FieldInfo :=
  match form.findIn (fun n => isTag "div" n && hasId "demographic-section" n) with
  | none => []
  | some sec => (sec.findAllIn (isTag "label")).filterMap (demographicEntry form)

/-- `GreenhouseFormAnalyzer.extract_form_fields`: the result dictionary, as an
insertion-ordered association list; `[]` is Python's `{}`. -/
def extract_form_fields (doc : List HNode) : List (String × List FieldInfo) :=
  match findFormIn doc with
  | none => []
  | some form =>
      [("basic_info", basic_ids.filterMap (basicEntry form)),
       ("resume_upload", (uploadEntry form "resume" "Resume/CV").toList),
       ("cover_letter_upload", (uploadEntry form "cover_letter" "Cover Letter").toList),
       ("custom_questions", customEntries form),
       ("demographic_questions", demographicEntries form)]

/-! ### Question-to-answer keyword matching (main.py vs join_bot.py) -/

/-- Which configuration answer a matcher picks for a question. -/
inductive FieldKey where
  | reside_in_barcelona
  | start_date
  | expected_compensation
  | english_proficiency
  | german_proficiency
  | require_sponsorship
  | react_experience
  | current_city
  | remotely_available
  deriving DecidableEq, Repr

/-- The keyword chain of `main.py`'s `login_and_apply_to_jobs`, which tests
its keywords against the raw question text. -/
def mainQuestionKey (question_text : String) : Option FieldKey :=
  if pyIn "reside in" question_text || pyIn "currently legally permitted" question_text then
    some .reside_in_barcelona
  else if pyIn "available to start" question_text
      || pyIn "available to start working" question_text
      || pyIn "earliest date you could start" question_text then
    some .start_date
  else if pyIn "expected yearly compensation" question_text
      || pyIn "salary range" question_text then
    some .expected_compensation
  else if pyIn "level of proficiency in English" question_text then
    some .english_proficiency
  else if pyIn "level of proficiency in" question_text then
    some .german_proficiency
  else if pyIn "require sponsorship for employment visa status" question_text then
    some .require_sponsorship
  else if pyIn "years of work experience in" question_text then
    some .react_experience
  else if pyIn "currently live" question_text || pyIn "currently located" question_text then
    some .current_city
  else if pyIn "comfortable working in a remote" question_text then
    some .remotely_available
  else none

/-- The `question_handlers` dict of
`JoinApplicationBot._handle_application_questions`, in insertion order. -/
def join_question_handlers : List (String × FieldKey) :=
  [("reside in", .reside_in_barcelona),
   ("currently legally permitted", .reside_in_barcelona),
   ("available to start", .start_date),
   ("expected yearly compensation", .expected_compensation),
   ("level of proficiency in English", .english_proficiency),
   ("level of proficiency in", .german_proficiency),
   ("require sponsorship", .require_sponsorship),
   ("years of work experience", .react_experience),
   ("currently live", .current_city),
   ("comfortable working in a remote", .remotely_available)]

/-- The join_bot matcher: keywords are tested, in dict order, against the
LOWERCASED question text; the first hit wins. -/
def joinQuestionKey (question_text : String) : Option FieldKey :=
  let t := pyLower question_text
  (join_question_handlers.find? (fun kw => pyIn kw.1 t)).map Prod.snd

/-! ### job_bots/config.py -/

/-- The `ApplicationConfig` dataclass: its exact ten declared fields. -/
structure ApplicationConfig where
  reside_in_barcelona : String
  start_date : String
  expected_compensation : String
  english_proficiency : String
  require_sponsorship : String
  react_experience : String
  skills : List String
  german_proficiency : String
  current_city : String
  remotely_available : String
  deriving DecidableEq, Repr

/-- A JSON config file that defines exactly the ten configuration keys
(`cls(**config_dict)` requires exactly these). -/
structure ConfigDict where
  reside_in_barcelona : String
  start_date : String
  expected_compensation : String
  english_proficiency : String
  require_sponsorship : String
  react_experience : String
  skills : List String
  german_proficiency : String
  current_city : String
  remotely_available : String
  deriving DecidableEq, Repr

/-- Civil date (year, month, day) from a day count since 1970-01-01
(standard era-based conversion, as `datetime` performs it). -/
def civilFromDays (z : Nat) : Nat × Nat × Nat :=
  let z := z + 719468
  let era := z / 146097
  let doe := z % 146097
  let yoe := (doe - doe / 1460 + doe / 36524 - doe / 146096) / 365
  let y := yoe + era * 400
  let doy := doe - (365 * yoe + yoe / 4 - yoe / 100)
  let mp := (5 * doy + 2) / 153
  let d := doy - (153 * mp + 2) / 5 + 1
  let m := if mp < 10 then mp + 3 else mp - 9
  (if m ≤ 2 then y + 1 else y, m, d)

/-- Two-digit zero padding, as `%d` and `%m` of `strftime`. -/
def pad2 (n : Nat) : String :=
  if n < 10 then "0" ++ toString n else toString n

/-- `strftime("%d-%m-%Y")` on a (year, month, day) triple. -/
def strftimeDMY (ymd : Nat × Nat × Nat) : String :=
  pad2 ymd.2.2 ++ "-" ++ pad2 ymd.2.1 ++ "-" ++ toString ymd.1

/-- `ApplicationConfig.from_file`, with the JSON file contents and the current
date (as days since 1970-01-01) passed explicitly: the parsed dict's
`start_date` is overwritten with now + 15 days before construction. -/
def ApplicationConfig.from_file (config_dict : ConfigDict) (today : Nat) :
    ApplicationConfig :=
  { reside_in_barcelona := config_dict.reside_in_barcelona
  , start_date := strftimeDMY (civilFromDays (today + 15))
  , expected_compensation := config_dict.expected_compensation
  , english_proficiency := config_dict.english_proficiency
  , require_sponsorship := config_dict.require_sponsorship
  , react_experience := config_dict.react_experience
  , skills := config_dict.skills
  , german_proficiency := config_dict.german_proficiency
  , current_city := config_dict.current_city
  , remotely_available := config_dict.remotely_available }

/-! ### Retry loops (join_bot.py and main.py) -/

/-- `BaseJobApplicationBot.MAX_RETRIES`. -/
def MAX_RETRIES : Nat := 5

/-- Outcome of one submission attempt in `_submit_form_with_retry`: the
submit succeeds, a captcha error is detected, or an exception is raised. -/
inductive SubmitOutcome where
  | success
  | captcha
  | failure
  deriving DecidableEq, Repr

/-- The `while retry_count < self.MAX_RETRIES` loop of
`JoinApplicationBot._submit_form_with_retry`, with the environment abstracted
as the outcome of each attempt. Returns (result, number of attempts made). -/
def submitLoop (outcome : Nat → SubmitOutcome) (retry_count : Nat) : Bool × Nat :=
  if _h : retry_count < MAX_RETRIES then
    match outcome retry_count with
    | .success => (true, 1)
    | .failure =>
        let r := submitLoop outcome (retry_count + 1)
        (r.1, r.2 + 1)
    | .captcha =>
        if retry_count + 1 < MAX_RETRIES then
          let r := submitLoop outcome (retry_count + 1)
          (r.1, r.2 + 1)
        else (false, 1)
  else (false, 0)
termination_by MAX_RETRIES - retry_count
decreasing_by all_goals omega

/-- `_submit_form_with_retry` starts at `retry_count = 0`. -/
def submit_form_with_retry (outcome : Nat → SubmitOutcome) : Bool × Nat :=
  submitLoop outcome 0

/-- Outcome of one attempt of the per-job retry loop in `main.py`'s
`login_and_apply_to_jobs`: form found and submitted, an already-applied link
found, the form missing (`NoSuchElementException`), or another exception. -/
inductive JobOutcome where
  | submitted
  | alreadyApplied
  | formMissing
  | failure
  deriving DecidableEq, Repr

/-- The `while retry_count < max_retries` (5) per-job loop of `main.py`.
Returns (skip_job, number of attempts made). -/
def jobLoop (outcome : Nat → JobOutcome) (retry_count : Nat) : Bool × Nat :=
  if _h : retry_count < 5 then
    match outcome retry_count with
    | .submitted => (false, 1)
    | .alreadyApplied => (true, 1)
    | .formMissing => (true, 1)
    | .failure =>
        if retry_count + 1 < 5 then
          let r := jobLoop outcome (retry_count + 1)
          (r.1, r.2 + 1)
        else (true, 1)
  else (false, 0)
termination_by 5 - retry_count
decreasing_by all_goals omega

/-! ### main.py search_jobs -/

/-- `JobApplicationBot.search_jobs` of `main.py`: the already-applied lines
are read first; Google result pages 1 and 2 (`range(1, 3)`) are scraped, and
a result URL is kept when it contains the site filter and is not among the
applied lines. The hrefs found on each page are passed in explicitly. -/
def search_jobs (applied_urls : List String) (site_filter : String)
    (pageHrefs : Nat → List String) : List String :=
  ([1, 2] : List Nat).foldl
    (fun acc page =>
      acc ++ (pageHrefs page).filter
        (fun h => pyIn site_filter h && !(applied_urls.contains h)))
    []

/-! ### Cover letter generation (base_bot.py and generate_cover_letter.py) -/

/-- The fixed output file name of `save_cover_letter_as_pdf`. -/
def cover_letter_file_name : String := "cover_letter.pdf"

/-- `Path(name).absolute()` resolved against the current working directory. -/
def path_abspath (cwd name : String) : String := cwd ++ "/" ++ name

/-- What one call of `BaseJobApplicationBot.generate_cover_letter` produces:
the generated text, the file the PDF is saved to, and the returned path. -/
structure CoverLetterRun where
  cover_letter_text : String
  saved_pdf : String
  returned : String
  deriving DecidableEq, Repr

/-- `BaseJobApplicationBot.generate_cover_letter`, with the LLM call passed
in as a function of (job_description, job_title, hr_name). -/
def generate_cover_letter (generate : String → String → String → String)
    (cwd job_title job_description hr_name : String) : CoverLetterRun :=
  let cover_letter_text := generate job_description job_title hr_name
  { cover_letter_text := cover_letter_text
  , saved_pdf := cover_letter_file_name
  , returned := path_abspath cwd cover_letter_file_name }

/-! ### greenhouse_bot.py demographic section -/

/-- A Python attribute value of `ApplicationConfig` (strings or the skills
list). -/
inductive PyValue where
  | str (s : String)
  | strList (l : List String)
  deriving DecidableEq, Repr

/-- Python `getattr` on an `ApplicationConfig` instance: the dataclass
declares exactly ten fields; any other name raises `AttributeError`. -/
def ApplicationConfig.getattr (c : ApplicationConfig) : String → Except Unit PyValue
  | "reside_in_barcelona" => .ok (.str c.reside_in_barcelona)
  | "start_date" => .ok (.str c.start_date)
  | "expected_compensation" => .ok (.str c.expected_compensation)
  | "english_proficiency" => .ok (.str c.english_proficiency)
  | "require_sponsorship" => .ok (.str c.require_sponsorship)
  | "react_experience" => .ok (.str c.react_experience)
  | "skills" => .ok (.strList c.skills)
  | "german_proficiency" => .ok (.str c.german_proficiency)
  | "current_city" => .ok (.str c.current_city)
  | "remotely_available" => .ok (.str c.remotely_available)
  | _ => .error ()

/-- The form state: the (field id, answer) fills performed so far. -/
abbrev FormState := List (String × PyValue)

/-- `GreenhouseApplicationBot._handle_demographic_section`: a direct-style
translation of its `try` block, where an `AttributeError` aborts to the
`except` handler (which only logs), keeping the fills made so far. The
`hasattr`-guarded fields fall back to "Prefer not to say". The actual
`_handle_greenhouse_form_field` effect is abstracted as `fill`. -/
def handle_demographic_section (fill : FormState → String → String → PyValue → FormState)
    (config : ApplicationConfig) (form : FormState) : FormState :=
  match config.getattr "gender" with
  | .error _ => form
  | .ok gender =>
    let form := fill form "4024662004" "select" gender
    let gender_identity :=
      match config.getattr "gender_identity" with
      | .ok v => v
      | .error _ => PyValue.str "Prefer not to say"
    let form := fill form "4024663004" "select" gender_identity
    let pronouns :=
      match config.getattr "pronouns" with
      | .ok v => v
      | .error _ => PyValue.str "Prefer not to say"
    let form := fill form "4024664004" "select" pronouns
    let sexual_orientation :=
      match config.getattr "sexual_orientation" with
      | .ok v => v
      | .error _ => PyValue.str "Prefer not to say"
    let form := fill form "4024665004" "select" sexual_orientation
    let hispanic_latinx :=
      match config.getattr "hispanic_latinx" with
      | .ok v => v
      | .error _ => PyValue.str "Prefer not to say"
    let form := fill form "4024666004" "select" hispanic_latinx
    match config.getattr "ethnicity" with
    | .error _ => form
    | .ok ethnicity =>
      let form := fill form "4024667004" "select" ethnicity
      match config.getattr "veteran_status" with
      | .error _ => form
      | .ok veteran_status =>
        let form := fill form "4024668004" "select" veteran_status
        match config.getattr "disability_status" with
        | .error _ => form
        | .ok disability_status => fill form "4024669004" "select" disability_status

/-! ### job_bots/utils.py applied-jobs record -/

/-- Splitting file contents into lines as Python file iteration does: each
line keeps its trailing newline; a last chunk without one is still a line. -/
def linesAux : List Char → List Char → List (List Char)
  | acc, [] => if acc.isEmpty then [] else [acc.reverse]
  | acc, c :: rest =>
      if c = '\n' then (acc.reverse ++ ['\n']) :: linesAux [] rest
      else linesAux (c :: acc) rest

/-- The lines of a file's contents, Python-iteration style. -/
def pyFileLines (s : String) : List String :=
  (linesAux [] s.toList).map String.mk

/-- `record_applied_job`: append the URL and a newline to `applied.txt`
(creating it if missing). The file system is `Option String`. -/
def record_applied_job (job_url : String) (fs : Option String) : Option String :=
  some ((fs.getD "") ++ job_url ++ "\n")

/-- `is_already_applied`: `False` when the file does not exist; otherwise
whether the URL equals some stripped line of the file. -/
def is_already_applied (job_url : String) (fs : Option String) : Bool :=
  match fs with
  | none => false
  | some content => decide (job_url ∈ (pyFileLines content).map pyStrip)

/-! ### Concrete inputs used by counterexamples and witnesses -/

/-- A config file whose stored `start_date` is `2020-01-01`. -/
def cex_config_dict : ConfigDict :=
  { reside_in_barcelona := "Yes"
  , start_date := "2020-01-01"
  , expected_compensation := "50000"
  , english_proficiency := "Fluent"
  , require_sponsorship := "No"
  , react_experience := "3"
  , skills := ["python"]
  , german_proficiency := "None"
  , current_city := "Lahore"
  , remotely_available := "Yes" }

/-- A label for `first_name` without `*` and without `aria-required`. -/
def cexLabel : HNode :=
  .elem "label" [("for", "first_name")] [.text "First Name"]

/-- A `first_name` input that itself carries `aria-required='true'`. -/
def cexInput : HNode :=
  .elem "input"
    [("id", "first_name"), ("type", "text"), ("aria-required", "true"),
     ("name", "job_application[first_name]")] []

/-- An application form containing only the field above. -/
def cexForm : HNode :=
  .elem "form" [("id", "application_form")] [cexLabel, cexInput]

/-- A document wrapping the form above. -/
def cexDoc : List HNode :=
  [.elem "html" [] [.elem "body" [] [cexForm]]]

/-- The entry the analyzer extracts for the field above. -/
def cexEntry : FieldInfo :=
  { id := "first_name"
  , type := "text"
  , label := "First Name"
  , required := false
  , name := some "job_application[first_name]"
  , accept := none }

end JobGenie

namespace JobGenie

/-- C1: `detect_platform` classifies the ATS by substring matching on the
lowercased URL, in this order: `join` when the URL contains `join.com`;
otherwise `greenhouse` when it contains `boards.greenhouse.io`,
`job-boards.greenhouse.io` or `greenhouse.io`; otherwise `lever` when it
contains `lever.co` or `jobs.lever.co`. -/
theorem detect_platform_substring_order (url : String) :
    (pyIn "join.com" (pyLower url) = true → detect_platform url = some "join")
    ∧ (pyIn "join.com" (pyLower url) = false →
        (pyIn "boards.greenhouse.io" (pyLower url)
          || pyIn "job-boards.greenhouse.io" (pyLower url)
          || pyIn "greenhouse.io" (pyLower url)) = true →
        detect_platform url = some "greenhouse")
    ∧ (pyIn "join.com" (pyLower url) = false →
        (pyIn "boards.greenhouse.io" (pyLower url)
          || pyIn "job-boards.greenhouse.io" (pyLower url)
          || pyIn "greenhouse.io" (pyLower url)) = false →
        (pyIn "lever.co" (pyLower url) || pyIn "jobs.lever.co" (pyLower url)) = true →
        detect_platform url = some "lever") := by
  refine ⟨fun h1 => ?_, fun h1 h2 => ?_, fun h1 h2 h3 => ?_⟩
  · simp [detect_platform, h1]
  · simp [detect_platform, h1, h2]
  · simp [detect_platform, h1, h2, h3]

/-- Witness for C1 at concrete URLs of each platform. -/
theorem detect_platform_substring_order_witness :
    detect_platform "https://Boards.Greenhouse.io/acme/jobs/1" = some "greenhouse" :=
  (detect_platform_substring_order "https://Boards.Greenhouse.io/acme/jobs/1").2.1
    (by decide) (by decide)

/-- C9: URLs matching none of the recognized substrings get platform `none`
(not the `join` default the docstring describes); `group_urls_by_platform`
silently omits them, every URL in the grouped output is classified as its
group's platform (one of join/greenhouse/lever), and each group's list is the
input filtered to that platform, hence preserves the input's relative order. -/
theorem group_urls_by_platform_omits_unknown (urls : List String)
    (url p : String) (l : List String) :
    ((pyIn "join.com" (pyLower url) || pyIn "boards.greenhouse.io" (pyLower url)
        || pyIn "job-boards.greenhouse.io" (pyLower url)
        || pyIn "greenhouse.io" (pyLower url)
        || pyIn "lever.co" (pyLower url)
        || pyIn "jobs.lever.co" (pyLower url)) = false →
      detect_platform url = none)
    ∧ ((p, l) ∈ group_urls_by_platform urls →
        l = urls.filter (fun u => detect_platform u == some p)
        ∧ ∀ u ∈ l, detect_platform u = some p
            ∧ (p = "join" ∨ p = "greenhouse" ∨ p = "lever")) := by
  constructor
  · intro h
    simp only [Bool.or_eq_false_iff] at h
    obtain ⟨⟨⟨⟨⟨h1, h2⟩, h3⟩, h4⟩, h5⟩, h6⟩ := h
    simp [detect_platform, h1, h2, h3, h4, h5, h6]
  · intro hmem
    have hnd : ((group_urls_by_platform urls).map Prod.fst).Nodup :=
      keys_nodup_foldl_groupStep urls [] (by simp)
    have hlk := lookup_of_mem_of_nodupKeys _ p l hnd hmem
    have hfold : (List.lookup p (group_urls_by_platform urls)).getD []
        = urls.filter (fun u => detect_platform u == some p) := by
      simpa [group_urls_by_platform, List.lookup] using
        lookup_foldl_groupStep urls [] p
    have hl : l = urls.filter (fun u => detect_platform u == some p) := by
      rw [← hfold, hlk]
      rfl
    refine ⟨hl, fun u hu => ?_⟩
    have hu' := hu
    rw [hl] at hu'
    have hmf := List.mem_filter.mp hu'
    have hdet : detect_platform u = some p := by simpa using hmf.2
    exact ⟨hdet, detect_platform_values u p hdet⟩

/-- Witness for C9: an unrecognized URL maps to `none`, and grouping a list
with an unrecognized URL keeps the join URLs, in order, and drops the rest. -/
theorem group_urls_by_platform_omits_unknown_witness :
    detect_platform "https://example.org/job" = none
    ∧ ["https://join.com/a", "https://join.com/b"]
        = (["https://join.com/a", "https://example.org/job", "https://join.com/b"]).filter
            (fun u => detect_platform u == some "join") := by
  constructor
  · exact (group_urls_by_platform_omits_unknown [] "https://example.org/job" "p" []).1
      (by decide)
  · exact ((group_urls_by_platform_omits_unknown
      ["https://join.com/a", "https://example.org/job", "https://join.com/b"]
      "x" "join" ["https://join.com/a", "https://join.com/b"]).2 (by decide)).1

/-- What `basicEntry` guarantees about a produced entry: the id is the looked
up field id, and the entry is required exactly when a label for it exists and
that LABEL's text contains `*` or that LABEL carries `aria-required='true'`. -/
theorem basicEntry_spec (form : HNode) (a : String) (e : FieldInfo)
    (h : basicEntry form a = some e) :
    e.id = a
    ∧ (e.required = true ↔ ∃ le, labelForIn form a = some le
        ∧ (pyIn "*" (getText le) = true
            ∨ attrOf le "aria-required" = some "true")) := by
  simp only [basicEntry] at h
  cases hfind : form.findIn (fun n => isTag "input" n && hasId a n) with
  | none =>
      rw [hfind] at h
      simp at h
  | some field =>
      simp only [hfind, Option.some.injEq] at h
      subst h
      refine ⟨rfl, ?_⟩
      cases hle : labelForIn form a with
      | none => simp [hle]
      | some le => simp [hle]

/-- What `uploadEntry` guarantees: the id is the input id, and the entry is
required exactly when the upload label div exists and contains `*` (the
element's `aria-required` is never consulted). -/
theorem uploadEntry_spec (form : HNode) (iid dl : String) (e : FieldInfo)
    (h : uploadEntry form iid dl = some e) :
    e.id = iid
    ∧ (e.required = true ↔ ∃ ul, uploadLabelFor form iid = some ul
        ∧ pyIn "*" (getText ul) = true) := by
  simp only [uploadEntry] at h
  cases hfind : form.findIn (fun n => isTag "input" n && hasId iid n) with
  | none =>
      rw [hfind] at h
      simp at h
  | some inp =>
      simp only [hfind, Option.some.injEq] at h
      subst h
      refine ⟨rfl, ?_⟩
      cases hul : uploadLabelFor form iid with
      | none => simp [hul]
      | some ul => simp [hul]

/-- What `customEntry` guarantees: the entry's id is the label's `for`
target, that target resolves to an input/select/textarea of the form, and
the entry is required exactly when the label text contains `*` or the FIELD
element carries `aria-required='true'`. -/
theorem customEntry_spec (form le : HNode) (e : FieldInfo)
    (h : customEntry form le = some e) :
    attrOf le "for" = some e.id
    ∧ ∃ fe, questionFieldFor form e.id = some fe
        ∧ (e.required = true ↔ (pyIn "*" (getText le) = true
            ∨ attrOf fe "aria-required" = some "true")) := by
  simp only [customEntry] at h
  cases hfor : attrOf le "for" with
  | none =>
      rw [hfor] at h
      simp at h
  | some qid =>
      simp only [hfor] at h
      by_cases hq : qid = ""
      · rw [if_pos hq] at h
        cases h
      · rw [if_neg hq] at h
        cases hfe : questionFieldFor form qid with
        | none =>
            rw [hfe] at h
            simp at h
        | some fe =>
            simp only [hfe, Option.some.injEq] at h
            subst h
            refine ⟨rfl, fe, hfe, ?_⟩
            simp

/-- What `demographicEntry` guarantees, mirroring `customEntry`. -/
theorem demographicEntry_spec (form le : HNode) (e : FieldInfo)
    (h : demographicEntry form le = some e) :
    attrOf le "for" = some e.id
    ∧ ∃ fe, demographicFieldFor form e.id = some fe
        ∧ (e.required = true ↔ (pyIn "*" (getText le) = true
            ∨ attrOf fe "aria-required" = some "true")) := by
  simp only [demographicEntry] at h
  cases hfor : attrOf le "for" with
  | none =>
      rw [hfor] at h
      simp at h
  | some qid =>
      simp only [hfor] at h
      by_cases hq : qid = ""
      · rw [if_pos hq] at h
        cases h
      · rw [if_neg hq] at h
        cases hfe : demographicFieldFor form qid with
        | none =>
            rw [hfe] at h
            simp at h
        | some fe =>
            simp only [hfe, Option.some.injEq] at h
            subst h
            refine ⟨rfl, fe, hfe, ?_⟩
            simp

/-- C2 counterexample: the claim's uniform `required` rule fails. In this
document the `first_name` input itself carries `aria-required='true'` and its
label has no `*`, yet the analyzer marks the entry NOT required, because for
basic fields the code inspects the LABEL's `aria-required`, not the
element's. -/
theorem extract_form_fields_required_counterexample :
    extract_form_fields cexDoc
      = [("basic_info", [cexEntry]),
         ("resume_upload", []), ("cover_letter_upload", []),
         ("custom_questions", []), ("demographic_questions", [])]
    ∧ cexEntry.required = false
    ∧ cexForm.findIn (fun n => isTag "input" n && hasId "first_name" n)
        = some cexInput
    ∧ attrOf cexInput "aria-required" = some "true"
    ∧ pyIn "*" (getText cexLabel) = false :=
  ⟨by decide, rfl, rfl, rfl, by decide⟩

/-- C2 (amended): with no form the analyzer returns the empty dict; with a
form it returns exactly the five categories in order, every basic entry's id
is one of the five standard ids, and `required` is computed per category:
basic entries from the label's text/`aria-required`, custom and demographic
entries from the label text and the FIELD's `aria-required`, upload entries
solely from a `*` in the upload label. Custom entries' ids are the `for`
targets of labels whose id contains `question_<digits>-label` and resolve to
an input/select/textarea of the form. -/
theorem extract_form_fields_spec (doc : List HNode) (form : HNode) (e : FieldInfo) :
    (findFormIn doc = none → extract_form_fields doc = [])
    ∧ (findFormIn doc = some form →
        ((extract_form_fields doc).map Prod.fst
            = ["basic_info", "resume_upload", "cover_letter_upload",
               "custom_questions", "demographic_questions"])
        ∧ (e ∈ (List.lookup "basic_info" (extract_form_fields doc)).getD [] →
            e.id ∈ basic_ids
            ∧ (e.required = true ↔ ∃ le, labelForIn form e.id = some le
                ∧ (pyIn "*" (getText le) = true
                    ∨ attrOf le "aria-required" = some "true")))
        ∧ (e ∈ (List.lookup "custom_questions" (extract_form_fields doc)).getD [] →
            ∃ le, le ∈ questionLabels form
              ∧ attrOf le "for" = some e.id
              ∧ ∃ fe, questionFieldFor form e.id = some fe
                  ∧ (e.required = true ↔ (pyIn "*" (getText le) = true
                      ∨ attrOf fe "aria-required" = some "true")))
        ∧ ((e ∈ (List.lookup "resume_upload" (extract_form_fields doc)).getD []
            ∨ e ∈ (List.lookup "cover_letter_upload" (extract_form_fields doc)).getD []) →
            (e.required = true ↔ ∃ ul, uploadLabelFor form e.id = some ul
                ∧ pyIn "*" (getText ul) = true))
        ∧ (e ∈ (List.lookup "demographic_questions" (extract_form_fields doc)).getD [] →
            ∃ le, attrOf le "for" = some e.id
              ∧ ∃ fe, demographicFieldFor form e.id = some fe
                  ∧ (e.required = true ↔ (pyIn "*" (getText le) = true
                      ∨ attrOf fe "aria-required" = some "true")))) := by
  refine ⟨fun h0 => ?_, fun hf => ?_⟩
  · unfold extract_form_fields
    rw [h0]
  · have hx : extract_form_fields doc
        = [("basic_info", basic_ids.filterMap (basicEntry form)),
           ("resume_upload", (uploadEntry form "resume" "Resume/CV").toList),
           ("cover_letter_upload", (uploadEntry form "cover_letter" "Cover Letter").toList),
           ("custom_questions", customEntries form),
           ("demographic_questions", demographicEntries form)] := by
      unfold extract_form_fields
      rw [hf]
    refine ⟨by rw [hx]; rfl, ?_, ?_, ?_, ?_⟩
    · intro he
      rw [hx, lookup_cons_pair, if_pos rfl] at he
      obtain ⟨a, ha, hae⟩ := List.mem_filterMap.mp he
      obtain ⟨hid, hreq⟩ := basicEntry_spec form a e hae
      rw [hid]
      exact ⟨ha, hreq⟩
    · intro he
      rw [hx, lookup_cons_pair, if_neg (by decide), lookup_cons_pair,
        if_neg (by decide), lookup_cons_pair, if_neg (by decide),
        lookup_cons_pair, if_pos rfl] at he
      obtain ⟨le, hle, hce⟩ := List.mem_filterMap.mp he
      obtain ⟨hfor, fe, hfe, hreq⟩ := customEntry_spec form le e hce
      exact ⟨le, hle, hfor, fe, hfe, hreq⟩
    · intro he
      rcases he with he | he
      · rw [hx, lookup_cons_pair, if_neg (by decide), lookup_cons_pair,
          if_pos rfl] at he
        have ho : uploadEntry form "resume" "Resume/CV" = some e := by
          simpa [Option.mem_toList, Option.mem_def] using he
        obtain ⟨hid, hreq⟩ := uploadEntry_spec form "resume" "Resume/CV" e ho
        rw [hid]
        exact hreq
      · rw [hx, lookup_cons_pair, if_neg (by decide), lookup_cons_pair,
          if_neg (by decide), lookup_cons_pair, if_pos rfl] at he
        have ho : uploadEntry form "cover_letter" "Cover Letter" = some e := by
          simpa [Option.mem_toList, Option.mem_def] using he
        obtain ⟨hid, hreq⟩ := uploadEntry_spec form "cover_letter" "Cover Letter" e ho
        rw [hid]
        exact hreq
    · intro he
      rw [hx, lookup_cons_pair, if_neg (by decide), lookup_cons_pair,
        if_neg (by decide), lookup_cons_pair, if_neg (by decide),
        lookup_cons_pair, if_neg (by decide), lookup_cons_pair,
        if_pos rfl] at he
      unfold demographicEntries at he
      cases hsec : form.findIn (fun n => isTag "div" n && hasId "demographic-section" n) with
      | none =>
          rw [hsec] at he
          cases he
      | some sec =>
          rw [hsec] at he
          obtain ⟨le, _, hde⟩ := List.mem_filterMap.mp he
          obtain ⟨hfor, fe, hfe, hreq⟩ := demographicEntry_spec form le e hde
          exact ⟨le, hfor, fe, hfe, hreq⟩

/-- Witness for C2 at the concrete document: the extracted `first_name` entry
has a standard id and its `required` bit matches the (label-based) rule. -/
theorem extract_form_fields_spec_witness :
    cexEntry.id ∈ basic_ids
    ∧ (cexEntry.required = true ↔ ∃ le, labelForIn cexForm cexEntry.id = some le
        ∧ (pyIn "*" (getText le) = true
            ∨ attrOf le "aria-required" = some "true")) :=
  ((extract_form_fields_spec cexDoc cexForm cexEntry).2 rfl).2.1 (by decide)

/-- C3: the duplicated join.com keyword matchers have drifted: `main.py`
tests its keywords against the raw question text and answers the English
proficiency question with `english_proficiency`, while join_bot tests the
same (capitalized) keyword against the LOWERCASED text, where it can never
match, so the generic `level of proficiency in` entry fires instead and the
question is answered with `german_proficiency`. -/
theorem join_matcher_drift :
    mainQuestionKey "What is your level of proficiency in English?"
        = some FieldKey.english_proficiency
    ∧ joinQuestionKey "What is your level of proficiency in English?"
        = some FieldKey.german_proficiency
    ∧ mainQuestionKey "What is your level of proficiency in English?"
        ≠ joinQuestionKey "What is your level of proficiency in English?" :=
  ⟨by decide, by decide, by decide⟩

/-- C4 counterexample: `from_file` does not return the stored `start_date`:
with the clock at day 0 (1970-01-01) the returned `start_date` is
`16-01-1970`, not the stored `2020-01-01`. -/
theorem from_file_start_date_counterexample :
    cex_config_dict.start_date = "2020-01-01"
    ∧ (ApplicationConfig.from_file cex_config_dict 0).start_date = "16-01-1970"
    ∧ (ApplicationConfig.from_file cex_config_dict 0).start_date
        ≠ cex_config_dict.start_date :=
  ⟨rfl, by decide, by decide⟩

/-- C4 (amended): every field of the returned `ApplicationConfig` except
`start_date` equals the value stored in the file; `start_date` is overwritten
with the current date plus 15 days, formatted `%d-%m-%Y`. -/
theorem from_file_fields (config_dict : ConfigDict) (today : Nat) :
    (ApplicationConfig.from_file config_dict today).reside_in_barcelona
        = config_dict.reside_in_barcelona
    ∧ (ApplicationConfig.from_file config_dict today).expected_compensation
        = config_dict.expected_compensation
    ∧ (ApplicationConfig.from_file config_dict today).english_proficiency
        = config_dict.english_proficiency
    ∧ (ApplicationConfig.from_file config_dict today).require_sponsorship
        = config_dict.require_sponsorship
    ∧ (ApplicationConfig.from_file config_dict today).react_experience
        = config_dict.react_experience
    ∧ (ApplicationConfig.from_file config_dict today).skills = config_dict.skills
    ∧ (ApplicationConfig.from_file config_dict today).german_proficiency
        = config_dict.german_proficiency
    ∧ (ApplicationConfig.from_file config_dict today).current_city
        = config_dict.current_city
    ∧ (ApplicationConfig.from_file config_dict today).remotely_available
        = config_dict.remotely_available
    ∧ (ApplicationConfig.from_file config_dict today).start_date
        = strftimeDMY (civilFromDays (today + 15)) :=
  ⟨rfl, rfl, rfl, rfl, rfl, rfl, rfl, rfl, rfl, rfl⟩

/-- The submit-retry loop makes at most `MAX_RETRIES - retry_count` attempts,
and returns `False` when no attempt succeeds. -/
theorem submitLoop_spec (d : Nat) : ∀ (outcome : Nat → SubmitOutcome) (rc : Nat),
    MAX_RETRIES - rc ≤ d →
    (submitLoop outcome rc).2 ≤ MAX_RETRIES - rc
    ∧ ((∀ i, outcome i ≠ .success) → (submitLoop outcome rc).1 = false) := by
  induction d with
  | zero =>
      intro outcome rc h
      rw [submitLoop, dif_neg (by omega)]
      simp
  | succ d ih =>
      intro outcome rc h
      by_cases hrc : rc < MAX_RETRIES
      · rw [submitLoop, dif_pos hrc]
        cases ho : outcome rc with
        | success =>
            refine ⟨by simpa using Nat.one_le_iff_ne_zero.mpr (by omega), ?_⟩
            intro hall
            exact absurd ho (hall rc)
        | failure =>
            have hrec := ih outcome (rc + 1) (by omega)
            exact ⟨by simp; omega, fun hall => by simpa using hrec.2 hall⟩
        | captcha =>
            by_cases h1 : rc + 1 < MAX_RETRIES
            · have hrec := ih outcome (rc + 1) (by omega)
              rw [if_pos h1]
              exact ⟨by simp; omega, fun hall => by simpa using hrec.2 hall⟩
            · rw [if_neg h1]
              exact ⟨by simp; omega, fun _ => rfl⟩
      · rw [submitLoop, dif_neg hrc]
        simp

/-- The per-job retry loop of `main.py` makes at most `5 - retry_count`
attempts, and sets `skip_job` when every attempt raises. -/
theorem jobLoop_spec (d : Nat) : ∀ (outcome : Nat → JobOutcome) (rc : Nat),
    5 - rc ≤ d →
    (jobLoop outcome rc).2 ≤ 5 - rc
    ∧ (rc < 5 → (∀ i, outcome i = .failure) → (jobLoop outcome rc).1 = true) := by
  induction d with
  | zero =>
      intro outcome rc h
      rw [jobLoop, dif_neg (by omega)]
      exact ⟨by simp, fun h5 _ => by omega⟩
  | succ d ih =>
      intro outcome rc h
      by_cases hrc : rc < 5
      · rw [jobLoop, dif_pos hrc]
        cases ho : outcome rc with
        | submitted =>
            refine ⟨by simp; omega, fun _ hall => ?_⟩
            exact absurd (hall rc) (by simp [ho])
        | alreadyApplied => exact ⟨by simp; omega, fun _ _ => rfl⟩
        | formMissing => exact ⟨by simp; omega, fun _ _ => rfl⟩
        | failure =>
            by_cases h1 : rc + 1 < 5
            · have hrec := ih outcome (rc + 1) (by omega)
              rw [if_pos h1]
              refine ⟨by simp; omega, fun _ hall => ?_⟩
              simpa using hrec.2 h1 hall
            · rw [if_neg h1]
              exact ⟨by simp; omega, fun _ _ => rfl⟩
      · rw [jobLoop, dif_neg hrc]
        exact ⟨by simp, fun h5 _ => by omega⟩

/-- C5: both retry loops are bounded and terminating (they are total
functions): `_submit_form_with_retry` makes at most `MAX_RETRIES = 5`
attempts and returns `False` when none succeeds, and the per-job loop of
`main.py` makes at most 5 attempts and marks the job skipped when every
attempt fails. -/
theorem retry_loops_bounded (outcome : Nat → SubmitOutcome)
    (jout : Nat → JobOutcome) :
    MAX_RETRIES = 5
    ∧ (submit_form_with_retry outcome).2 ≤ 5
    ∧ ((∀ i, outcome i ≠ .success) → (submit_form_with_retry outcome).1 = false)
    ∧ (jobLoop jout 0).2 ≤ 5
    ∧ ((∀ i, jout i = .failure) → (jobLoop jout 0).1 = true) := by
  have hs := submitLoop_spec MAX_RETRIES outcome 0 (by omega)
  have hj := jobLoop_spec 5 jout 0 (by omega)
  exact ⟨rfl, by simpa using hs.1, hs.2,
    by simpa using hj.1, fun hall => hj.2 (by omega) hall⟩

/-- Witness for C5: a run where every submit attempt hits a captcha returns
`False`, and a per-job run where every attempt raises marks the job skipped. -/
theorem retry_loops_bounded_witness :
    (submit_form_with_retry (fun _ => SubmitOutcome.captcha)).1 = false
    ∧ (jobLoop (fun _ => JobOutcome.failure) 0).1 = true :=
  ⟨(retry_loops_bounded (fun _ => .captcha) (fun _ => .failure)).2.2.1
      (fun _ => by decide),
   (retry_loops_bounded (fun _ => .captcha) (fun _ => .failure)).2.2.2.2
      (fun _ => rfl)⟩

/-- Membership in the page-scraping fold of `search_jobs`. -/
theorem mem_search_foldl (pageHrefs : Nat → List String)
    (applied_urls : List String) (site_filter : String) (u : String) :
    ∀ (pages : List Nat) (acc : List String),
    u ∈ pages.foldl
        (fun acc page =>
          acc ++ (pageHrefs page).filter
            (fun h => pyIn site_filter h && !(applied_urls.contains h)))
        acc →
    u ∈ acc ∨ (pyIn site_filter u = true ∧ applied_urls.contains u = false) := by
  intro pages
  induction pages with
  | nil => intro acc h; exact Or.inl h
  | cons p rest ih =>
      intro acc h
      rcases ih _ h with h' | h'
      · rcases List.mem_append.mp h' with h2 | h2
        · exact Or.inl h2
        · have hf := List.mem_filter.mp h2
          have := hf.2
          simp only [Bool.and_eq_true, Bool.not_eq_eq_eq_not, Bool.not_true] at this
          exact Or.inr ⟨this.1, by simpa using this.2⟩
      · exact Or.inr h'

/-- C6: every URL returned by `search_jobs` contains the site filter as a
substring and is not among the applied.txt lines read at the start. -/
theorem search_jobs_filter_correct (applied_urls : List String)
    (site_filter : String) (pageHrefs : Nat → List String) (u : String)
    (h : u ∈ search_jobs applied_urls site_filter pageHrefs) :
    pyIn site_filter u = true ∧ u ∉ applied_urls := by
  rcases mem_search_foldl pageHrefs applied_urls site_filter u [1, 2] [] h with
    h' | h'
  · cases h'
  · refine ⟨h'.1, fun hmem => ?_⟩
    have : applied_urls.contains u = true := List.elem_eq_true_of_mem hmem
    rw [h'.2] at this
    cases this

/-- Witness for C6 at a concrete page of results. -/
theorem search_jobs_filter_correct_witness :
    pyIn "join.com" "https://join.com/a" = true
    ∧ "https://join.com/a" ∉ (["https://join.com/b"] : List String) :=
  search_jobs_filter_correct ["https://join.com/b"] "join.com"
    (fun _ => ["https://join.com/a", "https://other.org/x", "https://join.com/b"])
    "https://join.com/a" (by decide)

/-- Unfolding the line scan on the empty input. -/
theorem linesAux_nil (acc : List Char) :
    linesAux acc [] = if acc.isEmpty then [] else [acc.reverse] := rfl

/-- Unfolding one step of the line scan. -/
theorem linesAux_cons (acc : List Char) (c : Char) (rest : List Char) :
    linesAux acc (c :: rest) =
      if c = '\n' then (acc.reverse ++ ['\n']) :: linesAux [] rest
      else linesAux (c :: acc) rest := rfl

/-- Splitting the line scan at a newline. -/
theorem linesAux_split (a0 : List Char) : ∀ (acc b : List Char),
    linesAux acc (a0 ++ '\n' :: b) = linesAux acc (a0 ++ ['\n']) ++ linesAux [] b := by
  induction a0 with
  | nil =>
      intro acc b
      rw [List.nil_append, List.nil_append, linesAux_cons, if_pos rfl,
        linesAux_cons, if_pos rfl, linesAux_nil]
      simp
  | cons c a0 ih =>
      intro acc b
      by_cases hc : c = '\n'
      · subst hc
        rw [List.cons_append, linesAux_cons, if_pos rfl, List.cons_append,
          linesAux_cons, if_pos rfl, ih, List.cons_append]
      · rw [List.cons_append, linesAux_cons, if_neg hc, List.cons_append,
          linesAux_cons, if_neg hc, ih]

/-- A newline-free chunk followed by a newline scans to exactly one line. -/
theorem linesAux_single (u : List Char) : ∀ (acc : List Char),
    (∀ c ∈ u, c ≠ '\n') →
    linesAux acc (u ++ ['\n']) = [acc.reverse ++ u ++ ['\n']] := by
  induction u with
  | nil =>
      intro acc _
      rw [List.nil_append, linesAux_cons, if_pos rfl, linesAux_nil]
      simp
  | cons c u ih =>
      intro acc h
      have hc : c ≠ '\n' := h c (by simp)
      rw [List.cons_append, linesAux_cons, if_neg hc,
        ih (c :: acc) (fun x hx => h x (by simp [hx]))]
      simp

/-- Stripping ignores a trailing newline. -/
theorem pyStripChars_newline (u : List Char) :
    pyStripChars (u ++ ['\n']) = pyStripChars u := by
  have hws : isPyWs '\n' = true := rfl
  simp [pyStripChars, List.reverse_append, List.dropWhile_cons, hws]

/-- C10 counterexample: a URL with a trailing space and no newline does not
round-trip, because `is_already_applied` strips each stored line. -/
theorem applied_roundtrip_counterexample :
    ('\n' ∉ "https://join.com/a ".toList)
    ∧ is_already_applied "https://join.com/a "
        (record_applied_job "https://join.com/a " none) = false :=
  ⟨by decide, by decide⟩

/-- C10 (amended): for every URL with no newline that equals its own strip,
and every file state that is missing, empty, or newline-terminated,
`is_already_applied` returns `True` right after `record_applied_job`; and
`is_already_applied` returns `False` whenever `applied.txt` does not exist. -/
theorem applied_roundtrip (url : String) (fs : Option String) :
    ('\n' ∉ url.toList →
      pyStrip url = url →
      ((fs.getD "") = "" ∨ ∃ p0, (fs.getD "").toList = p0 ++ ['\n']) →
      is_already_applied url (record_applied_job url fs) = true)
    ∧ is_already_applied url none = false := by
  refine ⟨?_, rfl⟩
  intro hnl hstrip hprev
  have hnl' : ∀ c ∈ url.toList, c ≠ '\n' := fun c hc hceq => hnl (hceq ▸ hc)
  have key : pyStrip (String.mk (url.toList ++ ['\n'])) = url := by
    show String.mk (pyStripChars (url.toList ++ ['\n'])) = url
    rw [pyStripChars_newline]
    exact hstrip
  simp only [is_already_applied, record_applied_job, decide_eq_true_eq]
  have hsplit : ((fs.getD "") ++ url ++ "\n").toList
      = (fs.getD "").toList ++ (url.toList ++ ['\n']) := by
    show ((fs.getD "").toList ++ url.toList) ++ ['\n']
        = (fs.getD "").toList ++ (url.toList ++ ['\n'])
    exact List.append_assoc _ _ _
  rcases hprev with hempty | ⟨p0, hp0⟩
  · rw [show pyFileLines ((fs.getD "") ++ url ++ "\n")
        = [String.mk (url.toList ++ ['\n'])] from ?_]
    · simp only [List.map_cons, List.map_nil, key]
      exact List.mem_singleton.mpr rfl
    · unfold pyFileLines
      rw [hsplit, hempty]
      rw [show ("" : String).toList = [] from rfl, List.nil_append]
      rw [linesAux_single url.toList [] hnl']
      simp
  · unfold pyFileLines
    rw [hsplit, hp0, List.append_assoc, List.singleton_append,
      linesAux_split p0 [] (url.toList ++ ['\n']),
      linesAux_single url.toList [] hnl']
    simp only [List.map_append, List.map_cons, List.map_nil, List.reverse_nil,
      List.nil_append, key]
    exact List.mem_append_right _ (List.mem_singleton.mpr rfl)

/-- Witness for C10 at a concrete URL and a newline-terminated file. -/
theorem applied_roundtrip_witness :
    is_already_applied "https://join.com/a"
      (record_applied_job "https://join.com/a" (some "https://join.com/b\n")) = true :=
  (applied_roundtrip "https://join.com/a" (some "https://join.com/b\n")).1
    (by decide) (by decide)
    (Or.inr ⟨"https://join.com/b".toList, by decide⟩)

/-- C7: `generate_cover_letter` generates the cover letter text from the job
details, saves it as `cover_letter.pdf`, and returns the absolute path of
`cover_letter.pdf` in the current working directory; the returned path does
not depend on the job title, description or HR name. -/
theorem generate_cover_letter_path (generate : String → String → String → String)
    (cwd t d h t2 d2 h2 : String) :
    (generate_cover_letter generate cwd t d h).cover_letter_text = generate d t h
    ∧ (generate_cover_letter generate cwd t d h).saved_pdf = "cover_letter.pdf"
    ∧ (generate_cover_letter generate cwd t d h).returned
        = path_abspath cwd "cover_letter.pdf"
    ∧ (generate_cover_letter generate cwd t d h).returned
        = (generate_cover_letter generate cwd t2 d2 h2).returned :=
  ⟨rfl, rfl, rfl, rfl⟩

/-- C8: `_handle_demographic_section` never fills any demographic field: the
`ApplicationConfig` dataclass declares no `gender`, `ethnicity`,
`veteran_status` or `disability_status` attribute, so the very first access
`config.gender` raises `AttributeError`, which the method catches, leaving
the form state unchanged — for every `fill` effect, config and form. -/
theorem demographic_section_noop
    (fill : FormState → String → String → PyValue → FormState)
    (config : ApplicationConfig) (form : FormState) :
    handle_demographic_section fill config form = form
    ∧ config.getattr "gender" = .error ()
    ∧ config.getattr "ethnicity" = .error ()
    ∧ config.getattr "veteran_status" = .error ()
    ∧ config.getattr "disability_status" = .error () :=
  ⟨rfl, rfl, rfl, rfl, rfl⟩

end JobGenie
